import Mathlib

/-!
Shallow embedding of the stachys-affinis SCFA pipeline (stages 1 and 2):
the medium-configuration procedure `setup_medium`, the per-condition
simulation loop of `02_run_simulation.py`, and the dose-table validator
`read_scfa_inputs` of `utils.py`.  Reactions carry rational bounds; the
external LP solver is an abstract function `Model → Solution`.
-/

namespace SCFA

/-- A reaction of the metabolic network: an identifier and a pair of flux
bounds (lower, upper). -/
structure Reaction where
  id : String
  lb : ℚ
  ub : ℚ
deriving DecidableEq

/-- The network is the ordered collection of its reactions. -/
abbrev Model := List Reaction

/-- `s.startswith(p)` (expressed on the character lists, so that it computes
by structural recursion). -/
def strStartsWith (s p : String) : Bool :=
  p.data.isPrefixOf s.data

/-- `r.id.startswith(("EX_", "DM_", "sink_", "SK_"))` — boundary reactions are
identified by name prefix. -/
def isBoundaryId (rid : String) : Bool :=
  strStartsWith rid "EX_" || strStartsWith rid "DM_" ||
    strStartsWith rid "sink_" || strStartsWith rid "SK_"

/-- `rid in model.reactions`. -/
def containsRxn (m : Model) (rid : String) : Bool :=
  m.any (fun r => r.id == rid)

/-- Read the bounds of the reaction named `rid` (`none` when absent). -/
def getB : Model → String → Option (ℚ × ℚ)
  | [], _ => none
  | r :: rs, rid => if r.id = rid then some (r.lb, r.ub) else getB rs rid

/-- `model.reactions.get_by_id(rid).bounds = (l, u)`: set the bounds of the
reaction named `rid`; a no-op when no reaction has that identifier. -/
def setB : Model → String → ℚ → ℚ → Model
  | [], _, _, _ => []
  | r :: rs, rid, l, u =>
    if r.id = rid then { r with lb := l, ub := u } :: rs else r :: setB rs rid l u

/-- `model.reactions.get_by_id(rid).lower_bound = l`: set only the lower
bound; a no-op when no reaction has that identifier. -/
def setLB : Model → String → ℚ → Model
  | [], _, _ => []
  | r :: rs, rid, l =>
    if r.id = rid then { r with lb := l } :: rs else r :: setLB rs rid l

/-- `find_rxn`: try a list of possible IDs, return the first one that exists
in the model (we return the identifier; bounds are read via `getB`). -/
def find_rxn (m : Model) : List String → Option String
  | [] => none
  | rid :: rest => if containsRxn m rid then some rid else find_rxn m rest

/-- The `rxn = find_rxn(model, ids); if rxn: rxn.bounds = (l, u)` pattern of
`setup_medium` (oxygen, glucose). -/
def setIfFound (m : Model) (cands : List String) (l u : ℚ) : Model :=
  match find_rxn m cands with
  | some rid => setB m rid l u
  | none => m

/-- The identifiers of the network's reactions, in order. -/
def idsOf (m : Model) : List String :=
  m.map Reaction.id

/-! Reaction-ID candidate lists and medium components, from the module-level
constants of `02_run_simulation.py`. -/

inductive SCFAName where
  | acetate
  | propionate
  | butyrate
deriving DecidableEq

/-- `SCFA_RXN_IDS`. -/
def scfaCands : SCFAName → List String
  | .acetate => ["EX_ac_e", "EX_ac[u]", "EX_ac(e)"]
  | .propionate => ["EX_ppa_e", "EX_propn_e", "EX_ppn_e"]
  | .butyrate => ["EX_but_e", "EX_btn_e"]

def GLUCOSE_IDS : List String := ["EX_glc__D_e", "EX_glc_D_e", "EX_glc[e]"]

def O2_IDS : List String := ["EX_o2_e", "EX_o2[e]"]

def ATPM_IDS : List String := ["ATPM", "DM_atp_c_"]

/-- water and protons can flow freely. -/
def FREE : List String := ["EX_h2o_e", "EX_h_e"]

/-- inorganic ions - moderate uptake allowed. -/
def IONS : List (String × ℚ) :=
  [("EX_pi_e", 10), ("EX_so4_e", 10), ("EX_k_e", 10), ("EX_na1_e", 10),
   ("EX_ca2_e", 10), ("EX_cl_e", 10), ("EX_mg2_e", 10), ("EX_fe2_e", 10)]

/-- secretion products. -/
def SECRETION : List (String × ℚ) := [("EX_co2_e", 1000), ("EX_nh4_e", 100)]

def ESSENTIAL_AA : List String :=
  ["EX_his__L_e", "EX_ile__L_e", "EX_leu__L_e", "EX_lys__L_e",
   "EX_met__L_e", "EX_phe__L_e", "EX_thr__L_e", "EX_trp__L_e", "EX_val__L_e"]

def VITAMINS : List String :=
  ["EX_thm_e", "EX_ribflv_e", "EX_ncam_e", "EX_pnto__R_e",
   "EX_pydxn_e", "EX_fol_e", "EX_cbl1_e", "EX_chol_e", "EX_inost_e"]

/-- `PATHWAYS`: pathway reactions we want to read out (id, label). -/
def PATHWAYS : List (String × String) :=
  [("PYK", "pyruvate kinase"), ("PDHm", "pyruvate dehydrogenase"),
   ("CSm", "citrate synthase"), ("ACONTm", "aconitase"),
   ("ICDHxm", "isocitrate DH"), ("AKGDm", "alpha-KG DH"),
   ("SUCDi", "succinate DH"), ("FUMm", "fumarase"), ("MDHm", "malate DH"),
   ("PCm", "pyruvate carboxylase"), ("PEPCK", "PEPCK"), ("G6PDH2r", "G6PD"),
   ("FBA", "aldolase"), ("PFK", "PFK"), ("ATPS4mi", "ATP synthase"),
   ("NADH2_u10mi", "complex I"), ("CYOOm3i", "complex IV")]

/-- The `host_simulation` section of the run configuration. -/
structure SimConfig where
  oxygen_uptake : ℚ
  glucose_uptake : ℚ
  amino_acid_uptake : ℚ
  vitamin_uptake : ℚ
deriving DecidableEq

/-- Step "cap internal rxns" of `setup_medium`, per reaction: clamp the
bounds of non-boundary reactions into [-500, 500]. -/
def capInternal (r : Reaction) : Reaction :=
  if ¬ isBoundaryId r.id then
    let r1 := if r.lb < -500 then { r with lb := -500 } else r
    if r1.ub > 500 then { r1 with ub := 500 } else r1
  else r

/-- Step "close ALL boundary rxns" of `setup_medium`, per reaction. -/
def closeBoundary (r : Reaction) : Reaction :=
  if isBoundaryId r.id then { r with lb := 0, ub := 0 } else r

/-- The selective-reopen tail of `setup_medium`: water/protons, ions,
secretion products (plus the small ammonium uptake), resolved oxygen and
glucose, essential amino acids, and vitamins, in source order. -/
def reopenSteps (cfg : SimConfig) (m : Model) : Model :=
  let m1 := FREE.foldl (fun acc rid => setB acc rid (-1000) 1000) m
  let m2 := IONS.foldl (fun acc p => setB acc p.1 (-p.2) 100) m1
  let m3 := SECRETION.foldl (fun acc p => setB acc p.1 0 p.2) m2
  let m4 := setLB m3 "EX_nh4_e" (-(1/2))
  let m5 := setIfFound m4 O2_IDS (-cfg.oxygen_uptake) 0
  let m6 := setIfFound m5 GLUCOSE_IDS (-cfg.glucose_uptake) 0
  let m7 := ESSENTIAL_AA.foldl (fun acc rid => setB acc rid (-cfg.amino_acid_uptake) 0) m6
  VITAMINS.foldl (fun acc rid => setB acc rid (-cfg.vitamin_uptake) 0) m7

/-- `setup_medium`: cap internal reactions, close every boundary reaction,
then selectively reopen the curated medium. -/
def setup_medium (m : Model) (cfg : SimConfig) : Model :=
  reopenSteps cfg ((m.map capInternal).map closeBoundary)

/-- The curated identifiers that `setup_medium` reopens on a network with
the identifiers of `m`: the free exchanges, the ion, secretion, essential
amino acid and vitamin exchanges, and the resolved oxygen and glucose
exchanges. -/
def reopenedIds (m : Model) : List String :=
  FREE ++ IONS.map Prod.fst ++ SECRETION.map Prod.fst
    ++ (find_rxn m O2_IDS).toList ++ (find_rxn m GLUCOSE_IDS).toList
    ++ ESSENTIAL_AA ++ VITAMINS

/-! The simulation loop of `main` in `02_run_simulation.py`. -/

/-- What the external LP solver returns: `solution.objective_value` (possibly
absent) and the flux series `solution.fluxes` (absent entries model both
missing keys and NaN). -/
structure Solution where
  objective_value : Option ℚ
  fluxes : String → Option ℚ

/-- One dose condition: a row of the validated SCFA table. -/
structure DoseCond where
  condition : String
  acetate : ℚ
  propionate : ℚ
  butyrate : ℚ
deriving DecidableEq

def doseOf (c : DoseCond) : SCFAName → ℚ
  | .acetate => c.acetate
  | .propionate => c.propionate
  | .butyrate => c.butyrate

/-- Resolve each SCFA exchange reaction against the model, as `main` does
once before the condition loop. -/
def resolveScfas (m : Model) (s : SCFAName) : Option String :=
  find_rxn m (scfaCands s)

/-- A pending bound assignment `(rid, lower, upper)`. -/
abbrev BOp := String × ℚ × ℚ

/-- The bound assignments of one condition's `with model:` block:
`rxn.bounds = (-dose, 0)` for each SCFA whose exchange reaction resolved and
whose dose is strictly positive, in acetate/propionate/butyrate order. -/
def doseOps (rxns : SCFAName → Option String) (c : DoseCond) : List BOp :=
  [SCFAName.acetate, SCFAName.propionate, SCFAName.butyrate].filterMap fun s =>
    match rxns s with
    | some rid => if doseOf c s > 0 then some (rid, -(doseOf c s), 0) else none
    | none => none

/-- Apply a list of bound assignments in order. -/
def applyOps (m : Model) (ops : List BOp) : Model :=
  ops.foldl (fun acc op => setB acc op.1 op.2.1 op.2.2) m

/-- One SCFA's slice of the dose-application step (used to decompose
`applyOps ∘ doseOps` for reasoning). -/
def applyDose (m : Model) (rxns : SCFAName → Option String) (c : DoseCond)
    (s : SCFAName) : Model :=
  match rxns s with
  | some rid => if doseOf c s > 0 then setB m rid (-(doseOf c s)) 0 else m
  | none => m

/-- The undo entries recorded by the model's history manager while the
assignments `ops` are applied: for each assignment, the identifier and the
bounds it had just before. -/
def undoLog : Model → List BOp → List (String × Option (ℚ × ℚ))
  | _, [] => []
  | m, op :: rest => (op.1, getB m op.1) :: undoLog (setB m op.1 op.2.1 op.2.2) rest

/-- Replay one undo entry. -/
def restoreOne (m : Model) (e : String × Option (ℚ × ℚ)) : Model :=
  match e.2 with
  | some lu => setB m e.1 lu.1 lu.2
  | none => m

/-- Exiting the `with model:` block: replay the undo entries last-in
first-out. -/
def restoreOps (m : Model) (log : List (String × Option (ℚ × ℚ))) : Model :=
  log.reverse.foldl restoreOne m

/-- `get_pathway_fluxes`: the flux readout of the fixed pathway panel;
a reaction absent from the model, or a missing flux entry, reports the
missing-value marker (`none`). -/
def get_pathway_fluxes (m : Model) (sol : Solution) : List (String × Option ℚ) :=
  PATHWAYS.map fun p => (p.1, if containsRxn m p.1 then sol.fluxes p.1 else none)

/-- One output row of `host_fluxes_by_condition.csv`. -/
structure SimResult where
  condition : String
  objective_id : String
  objective_value : ℚ
  baseline_objective : ℚ
  objective_delta : ℚ
  objective_pct_change : Option ℚ
  glucose_flux : Option ℚ
  oxygen_flux : Option ℚ
  co2_flux : ℚ
  acetate_flux : Option ℚ
  propionate_flux : Option ℚ
  butyrate_flux : Option ℚ
  pathway : List (String × Option ℚ)
deriving DecidableEq

/-- The body of one condition's `with model:` block after the bounds are in
place: solve `m1` and record the result row.  `sol.objective_value or 0`
becomes `getD 0`; the percent change falls back to the missing-value marker
when the baseline objective is zero. -/
def mkResult (optimize : Model → Solution) (m1 : Model) (baseline : ℚ) (atpmId : String)
    (rglc ro2 : Option String) (rxns : SCFAName → Option String) (c : DoseCond) : SimResult :=
  let sol := optimize m1
  let obj := sol.objective_value.getD 0
  let delta := obj - baseline
  let pct : Option ℚ := if baseline = 0 then none else some (100 * delta / baseline)
  let flux : Option String → Option ℚ := fun o => o.map fun rid => (sol.fluxes rid).getD 0
  { condition := c.condition
    objective_id := atpmId
    objective_value := obj
    baseline_objective := baseline
    objective_delta := delta
    objective_pct_change := pct
    glucose_flux := flux rglc
    oxygen_flux := flux ro2
    co2_flux := (sol.fluxes "EX_co2_e").getD 0
    acetate_flux := flux (rxns .acetate)
    propionate_flux := flux (rxns .propionate)
    butyrate_flux := flux (rxns .butyrate)
    pathway := get_pathway_fluxes m1 sol }

/-- The result one condition would get when solved against the configured
network `m` with only its own dose bounds applied. -/
def solveCond (optimize : Model → Solution) (baseline : ℚ) (atpmId : String)
    (rglc ro2 : Option String) (rxns : SCFAName → Option String) (m : Model)
    (c : DoseCond) : SimResult :=
  mkResult optimize (applyOps m (doseOps rxns c)) baseline atpmId rglc ro2 rxns c

/-- The per-condition loop of `main`: for each condition, enter a scoped
block, apply the dose bounds (recording undo entries), solve, record the
row, and restore the recorded bounds on exit before the next condition. -/
def runLoop (optimize : Model → Solution) (baseline : ℚ) (atpmId : String)
    (rglc ro2 : Option String) (rxns : SCFAName → Option String) :
    Model → List DoseCond → List SimResult
  | _, [] => []
  | m, c :: rest =>
    let ops := doseOps rxns c
    let log := undoLog m ops
    let m1 := applyOps m ops
    let res := mkResult optimize m1 baseline atpmId rglc ro2 rxns c
    res :: runLoop optimize baseline atpmId rglc ro2 rxns (restoreOps m1 log) rest

/-- The simulation stage of `main` after the model is loaded: configure the
medium, resolve the mandatory ATPM objective (fatal when unresolved), open
its bounds, resolve the SCFA/glucose/oxygen exchanges, run the baseline
solve, then the per-condition loop. -/
def runStage (optimize : Model → Solution) (m : Model) (cfg : SimConfig)
    (conds : List DoseCond) : Except String (List SimResult) :=
  let mConf := setup_medium m cfg
  match find_rxn mConf ATPM_IDS with
  | none => Except.error "Cant find ATPM reaction"
  | some atpmId =>
    let mObj := setB mConf atpmId 0 500
    let rxns := resolveScfas mObj
    let rglc := find_rxn mObj GLUCOSE_IDS
    let ro2 := find_rxn mObj O2_IDS
    let baseline_sol := optimize mObj
    let baseline := baseline_sol.objective_value.getD 0
    Except.ok (runLoop optimize baseline atpmId rglc ro2 rxns mObj conds)

/-! The dose-table validator `read_scfa_inputs` of `utils.py`. -/

/-- A cell of the `condition` column as read from CSV: already a string, or
a raw (integer) value that `astype(str)` will canonicalize. -/
inductive CondVal where
  | str (s : String)
  | int (n : ℤ)
deriving DecidableEq

/-- `astype(str)` on one cell. -/
def CondVal.canon : CondVal → String
  | .str s => s
  | .int n => toString n

/-- One row of the dose table. -/
structure DoseRow where
  condition : CondVal
  acetate_mmol_gDW_hr : ℚ
  propionate_mmol_gDW_hr : ℚ
  butyrate_mmol_gDW_hr : ℚ
deriving DecidableEq

/-- The dose table: its column names and its rows. -/
structure DoseTable where
  columns : List String
  rows : List DoseRow
deriving DecidableEq

def astypeStrRow (r : DoseRow) : DoseRow :=
  { r with condition := .str r.condition.canon }

/-- `df["condition"] = df["condition"].astype(str)`. -/
def astypeStr (df : DoseTable) : DoseTable :=
  { df with rows := df.rows.map astypeStrRow }

def neededCols : List String :=
  ["condition", "acetate_mmol_gDW_hr", "propionate_mmol_gDW_hr", "butyrate_mmol_gDW_hr"]

def doseColumns : List String :=
  ["acetate_mmol_gDW_hr", "propionate_mmol_gDW_hr", "butyrate_mmol_gDW_hr"]

/-- The values of a dose column. -/
def colVals (df : DoseTable) (c : String) : List ℚ :=
  if c = "acetate_mmol_gDW_hr" then df.rows.map DoseRow.acetate_mmol_gDW_hr
  else if c = "propionate_mmol_gDW_hr" then df.rows.map DoseRow.propionate_mmol_gDW_hr
  else if c = "butyrate_mmol_gDW_hr" then df.rows.map DoseRow.butyrate_mmol_gDW_hr
  else []

/-- `(df[c] < 0).any()`. -/
def hasNeg (l : List ℚ) : Bool :=
  l.any fun x => x < 0

/-- The loop `for c in [...]: if (df[c] < 0).any(): raise` stops at the first
dose column holding a negative value. -/
def firstNegCol (df : DoseTable) : Option String :=
  doseColumns.find? fun c => hasNeg (colVals df c)

/-- The condition column as strings. -/
def condStrs (df : DoseTable) : List String :=
  df.rows.map fun r => r.condition.canon

/-- Lexicographic comparison of character lists (how Python compares the
strings that `sorted` orders), by structural recursion. -/
def charListLe : List Char → List Char → Bool
  | [], _ => true
  | _ :: _, [] => false
  | a :: as, b :: bs =>
    if a < b then true
    else if b < a then false
    else charListLe as bs

def strLe (a b : String) : Bool :=
  charListLe a.data b.data

def strLeP (a b : String) : Prop :=
  strLe a b = true

instance : DecidableRel strLeP := fun a b => instDecidableEqBool (strLe a b) true

/-- Row comparison used by `df.sort_values("condition")`. -/
def condLe (a b : DoseRow) : Prop :=
  strLe a.condition.canon b.condition.canon = true

instance : DecidableRel condLe :=
  fun a b => instDecidableEqBool (strLe a.condition.canon b.condition.canon) true

instance : IsTotal DoseRow condLe :=
  ⟨fun a b => by
    unfold condLe strLe
    generalize a.condition.canon.data = xs
    generalize b.condition.canon.data = ys
    induction xs generalizing ys with
    | nil => exact Or.inl rfl
    | cons x xsi ih =>
      cases ys with
      | nil => exact Or.inr rfl
      | cons y ysi =>
        by_cases h1 : x < y
        · exact Or.inl (by simp [charListLe, h1])
        · by_cases h2 : y < x
          · exact Or.inr (by simp [charListLe, h2])
          · rcases ih ysi with h | h
            · exact Or.inl (by simp [charListLe, h1, h2, h])
            · exact Or.inr (by simp [charListLe, h1, h2, h])⟩

instance : IsTrans DoseRow condLe :=
  ⟨fun a b c => by
    unfold condLe strLe
    generalize a.condition.canon.data = xs
    generalize b.condition.canon.data = ys
    generalize c.condition.canon.data = zs
    induction xs generalizing ys zs with
    | nil => exact fun _ _ => rfl
    | cons x xsi ih =>
      intro h1 h2
      cases ys with
      | nil => simp [charListLe] at h1
      | cons y ysi =>
        cases zs with
        | nil => simp [charListLe] at h2
        | cons z zsi =>
          by_cases hxy : x < y
          · by_cases hyz : y < z
            · simp [charListLe, lt_trans hxy hyz]
            · by_cases hzy : z < y
              · simp [charListLe, hyz, hzy] at h2
              · have hyeq : y = z := le_antisymm (le_of_not_lt hzy) (le_of_not_lt hyz)
                subst hyeq
                simp [charListLe, hxy]
          · by_cases hyx : y < x
            · simp [charListLe, hxy, hyx] at h1
            · have hxeq : x = y := le_antisymm (le_of_not_lt hyx) (le_of_not_lt hxy)
              subst hxeq
              simp only [charListLe, lt_irrefl, if_neg (lt_irrefl x)] at h1
              by_cases hxz : x < z
              · simp [charListLe, hxz]
              · by_cases hzx : z < x
                · simp [charListLe, hxz, hzx] at h2
                · have hzeq : x = z := le_antisymm (le_of_not_lt hzx) (le_of_not_lt hxz)
                  subst hzeq
                  simp only [charListLe, lt_irrefl, if_neg (lt_irrefl x)] at h2 ⊢
                  exact ih ysi zsi h1 h2⟩

def missingMsg (missing : List String) : String :=
  s!"Missing columns: {missing}"

/-- The condition-mismatch message: shows `sorted(expected_conditions)` and
`sorted(df[condition].unique())`. -/
def mismatchMsg (expected got : List String) : String :=
  let e := List.insertionSort strLeP expected
  let g := List.insertionSort strLeP got.dedup
  s!"Conditions dont match.\nExpected: {e}\nGot: {g}"

def negMsg (c : String) : String :=
  s!"Negative values in {c}"

/-- `read_scfa_inputs`: read and validate the SCFA input table — required
columns, exact condition set, no negative doses — and return it sorted by
condition with a string-typed condition column. -/
def read_scfa_inputs (df : DoseTable) (expected_conditions : List String) :
    Except String DoseTable :=
  let missing := neededCols.filter fun c => ! df.columns.contains c
  if missing ≠ [] then
    Except.error (missingMsg missing)
  else
    let dfs := astypeStr df
    if (condStrs dfs).toFinset ≠ expected_conditions.toFinset then
      Except.error (mismatchMsg expected_conditions (condStrs dfs))
    else
      match firstNegCol dfs with
      | some c => Except.error (negMsg c)
      | none => Except.ok { dfs with rows := List.insertionSort condLe dfs.rows }

/-! Concrete inputs used by the witness theorems. -/

def Wcfg : SimConfig := ⟨40, 5, 1/100, 1/100⟩

def Wmodel1 : Model := [⟨"EX_foo_e", -7, 9⟩, ⟨"PGI", -2000, 2000⟩]

def Wmodel2 : Model := [⟨"PFK", -3, 1000⟩]

def Wmodel3 : Model := [⟨"EX_ac_e", 0, 0⟩, ⟨"EX_ppa_e", 0, 0⟩]

def Wmodel8 : Model := [⟨"EX_ac_e", -1, 1⟩]

def Wopt : Model → Solution :=
  fun mm => ⟨(getB mm "EX_ac_e").map Prod.fst, fun _ => none⟩

def WcondA : DoseCond := ⟨"A", 1, 0, 0⟩

def WcondB : DoseCond := ⟨"B", 0, 2, 0⟩

def Wcond8 : DoseCond := ⟨"Low", 0, 3, 0⟩

def Wdf4 : DoseTable := ⟨neededCols, [⟨.str "Low", 1, 1, 1⟩]⟩

def Wexp4 : List String := ["Low", "Mid"]

def Wdf5 : DoseTable := ⟨neededCols, [⟨.str "Low", -1, 0, 0⟩]⟩

def Wexp5 : List String := ["Low"]

def Wdf6 : DoseTable := ⟨neededCols, [⟨.str "Mid", 1, 2, 3⟩, ⟨.str "Low", 0, 0, 0⟩]⟩

def Wexp6 : List String := ["Low", "Mid"]

def Wout6 : DoseTable := ⟨neededCols, [⟨.str "Low", 0, 0, 0⟩, ⟨.str "Mid", 1, 2, 3⟩]⟩

def Wdf10 : DoseTable :=
  ⟨neededCols,
   [⟨.str "Low", 1, 1, 1⟩, ⟨.str "Low", 2, 2, 2⟩, ⟨.str "High", 0, 0, 0⟩, ⟨.str "Mid", 3, 3, 3⟩]⟩

def Wexp10 : List String := ["Low", "Mid", "High"]

/-! Basic lemmas about bound reads and writes. -/

theorem setB_of_getB_none (m : Model) (rid : String) (l u : ℚ) (h : getB m rid = none) :
    setB m rid l u = m := by
  induction m with
  | nil => rfl
  | cons r rs ih =>
    by_cases hr : r.id = rid
    · simp [getB, hr] at h
    · simp only [getB, if_neg hr] at h
      simp only [setB, if_neg hr]
      rw [ih h]

theorem setB_setB_cancel (m : Model) (rid : String) (l u l0 u0 : ℚ)
    (h : getB m rid = some (l0, u0)) :
    setB (setB m rid l u) rid l0 u0 = m := by
  induction m with
  | nil => exact Option.noConfusion h
  | cons r rs ih =>
    by_cases hr : r.id = rid
    · cases r with
      | mk rid0 lb0 ub0 =>
        simp only [getB, if_pos hr] at h
        injection h with h'
        injection h' with h1 h2
        subst h1
        subst h2
        simp at hr
        simp [setB, hr]
    · simp only [getB, if_neg hr] at h
      simp only [setB, if_neg hr]
      rw [ih h]

theorem restore_applyOps (ops : List BOp) (m : Model) :
    restoreOps (applyOps m ops) (undoLog m ops) = m := by
  induction ops generalizing m with
  | nil => rfl
  | cons op rest ih =>
    simp only [applyOps, List.foldl_cons, undoLog, restoreOps, List.reverse_cons,
      List.foldl_append, List.foldl_cons, List.foldl_nil]
    have hrec := ih (setB m op.1 op.2.1 op.2.2)
    simp only [applyOps, restoreOps] at hrec
    rw [hrec]
    rcases hg : getB m op.1 with _ | ⟨l0, u0⟩
    · simp [restoreOne, setB_of_getB_none m op.1 op.2.1 op.2.2 hg]
    · simp [restoreOne, setB_setB_cancel m op.1 op.2.1 op.2.2 l0 u0 hg]

theorem runLoop_eq_map (optimize : Model → Solution) (baseline : ℚ) (atpmId : String)
    (rglc ro2 : Option String) (rxns : SCFAName → Option String) (m : Model)
    (conds : List DoseCond) :
    runLoop optimize baseline atpmId rglc ro2 rxns m conds
      = conds.map (solveCond optimize baseline atpmId rglc ro2 rxns m) := by
  induction conds with
  | nil => rfl
  | cons c rest ih =>
    simp only [runLoop, List.map_cons, restore_applyOps]
    exact List.cons_eq_cons.mpr ⟨rfl, ih⟩

/-- C3: per-condition results do not depend on which conditions ran before:
whenever a condition `c` appears at position `i` of one run list and at
position `j` of another (any permutation or subset), the per-condition
simulation loop produces the identical result row for it in both runs —
the SCFA bound perturbations of each scoped solve are restored before the
next condition's solve. -/
theorem scfa_c3 (optimize : Model → Solution) (baseline : ℚ) (atpmId : String)
    (rglc ro2 : Option String) (rxns : SCFAName → Option String) (m : Model)
    (conds1 conds2 : List DoseCond) (c : DoseCond) (i j : ℕ)
    (h1 : conds1[i]? = some c) (h2 : conds2[j]? = some c) :
    (runLoop optimize baseline atpmId rglc ro2 rxns m conds1)[i]?
      = (runLoop optimize baseline atpmId rglc ro2 rxns m conds2)[j]? := by
  rw [runLoop_eq_map, runLoop_eq_map, List.getElem?_map, List.getElem?_map, h1, h2]

theorem scfa_c3_witness :
    (runLoop Wopt 1 "ATPM" none none (resolveScfas Wmodel3) Wmodel3 [WcondA, WcondB])[0]?
      = (runLoop Wopt 1 "ATPM" none none (resolveScfas Wmodel3) Wmodel3 [WcondB, WcondA])[1]? :=
  scfa_c3 Wopt 1 "ATPM" none none (resolveScfas Wmodel3) Wmodel3
    [WcondA, WcondB] [WcondB, WcondA] WcondA 0 1 rfl rfl

/-- C9: the percent-change computation of the per-condition result row is
the missing-value marker when the baseline objective is zero (no division
by zero), and equals 100 · (objective − baseline) / baseline otherwise. -/
theorem scfa_c9 (optimize : Model → Solution) (m1 : Model) (baseline : ℚ) (atpmId : String)
    (rglc ro2 : Option String) (rxns : SCFAName → Option String) (c : DoseCond) :
    (baseline = 0 →
      (mkResult optimize m1 baseline atpmId rglc ro2 rxns c).objective_pct_change = none) ∧
    (baseline ≠ 0 →
      (mkResult optimize m1 baseline atpmId rglc ro2 rxns c).objective_pct_change
        = some (100 * ((mkResult optimize m1 baseline atpmId rglc ro2 rxns c).objective_value
            - baseline) / baseline)) := by
  constructor
  · intro h
    simp [mkResult, h]
  · intro h
    simp [mkResult, h]

theorem scfa_c9_witness :
    (mkResult Wopt [] 0 "ATPM" none none (fun _ => none) WcondA).objective_pct_change = none :=
  (scfa_c9 Wopt [] 0 "ATPM" none none (fun _ => none) WcondA).1 rfl

/-! Lemmas for the dose-application step (claim C8). -/

theorem getB_setB_ne (m : Model) (rid' : String) (l u : ℚ) (rid : String) (h : rid' ≠ rid) :
    getB (setB m rid' l u) rid = getB m rid := by
  induction m with
  | nil => rfl
  | cons r rs ih =>
    by_cases hr : r.id = rid'
    · have hner : r.id ≠ rid := hr ▸ h
      simp [setB, getB, hr, hner, h]
    · by_cases hr2 : r.id = rid
      · simp [setB, getB, hr, hr2, Ne.symm h]
      · simp [setB, getB, hr, hr2, ih]

theorem getB_setB_self (m : Model) (rid : String) (l u : ℚ) (h : (getB m rid).isSome) :
    getB (setB m rid l u) rid = some (l, u) := by
  induction m with
  | nil => simp [getB] at h
  | cons r rs ih =>
    by_cases hr : r.id = rid
    · simp [setB, getB, hr]
    · simp only [getB, if_neg hr] at h
      simp [setB, getB, hr, ih h]

theorem getB_isSome_of_contains (m : Model) (rid : String) (h : containsRxn m rid = true) :
    (getB m rid).isSome := by
  induction m with
  | nil => simp [containsRxn] at h
  | cons r rs ih =>
    by_cases hr : r.id = rid
    · simp [getB, hr]
    · have h' : containsRxn rs rid = true := by
        simp only [containsRxn, List.any_cons, Bool.or_eq_true, beq_iff_eq] at h ⊢
        rcases h with h | h
        · exact absurd h hr
        · exact h
      simp only [getB, if_neg hr]
      exact ih h'

theorem find_rxn_spec (m : Model) (cands : List String) (rid : String)
    (h : find_rxn m cands = some rid) : rid ∈ cands ∧ containsRxn m rid = true := by
  induction cands with
  | nil => exact Option.noConfusion h
  | cons c0 rest ih =>
    by_cases hc : containsRxn m c0 = true
    · simp only [find_rxn, if_pos hc] at h
      injection h with h
      subst h
      exact ⟨List.mem_cons_self .., hc⟩
    · simp only [find_rxn, if_neg hc] at h
      obtain ⟨hmem, hcont⟩ := ih h
      exact ⟨List.mem_cons_of_mem _ hmem, hcont⟩

theorem scfaCands_disj (s s' : SCFAName) (h : s ≠ s') :
    ∀ y ∈ scfaCands s, y ∉ scfaCands s' := by
  cases s <;> cases s' <;> first
    | exact absurd rfl h
    | decide

theorem applyOps_doseOps (rxns : SCFAName → Option String) (c : DoseCond) (m : Model) :
    applyOps m (doseOps rxns c)
      = applyDose (applyDose (applyDose m rxns c .acetate) rxns c .propionate) rxns c
          .butyrate := by
  cases hA : rxns .acetate <;> cases hP : rxns .propionate <;> cases hB : rxns .butyrate <;>
    simp only [doseOps, applyDose, List.filterMap_cons, List.filterMap_nil, hA, hP, hB] <;>
    first
      | (split_ifs <;> simp [applyOps])
      | simp [applyOps]

theorem applyDose_of_nonpos (m : Model) (rxns : SCFAName → Option String) (c : DoseCond)
    (s : SCFAName) (h : ¬ doseOf c s > 0) : applyDose m rxns c s = m := by
  unfold applyDose
  cases rxns s
  · rfl
  · simp [h]

theorem applyDose_of_pos (m : Model) (rxns : SCFAName → Option String) (c : DoseCond)
    (s : SCFAName) (rid : String) (hr : rxns s = some rid) (h : doseOf c s > 0) :
    applyDose m rxns c s = setB m rid (-(doseOf c s)) 0 := by
  unfold applyDose
  rw [hr]
  simp [h]

theorem getB_applyDose_ne (m : Model) (rxns : SCFAName → Option String) (c : DoseCond)
    (s' : SCFAName) (rid : String) (h : ∀ rid', rxns s' = some rid' → rid' ≠ rid) :
    getB (applyDose m rxns c s') rid = getB m rid := by
  unfold applyDose
  cases hr : rxns s' with
  | none => rfl
  | some rid' =>
    split_ifs with hd
    · exact getB_setB_ne m rid' _ 0 rid (h rid' hr)
    · rfl

/-- C8: for a condition `c` and an SCFA `s` whose exchange reaction resolved
to `rid`, the dose-application step of the scoped solve leaves `rid`'s
bounds unmodified when the dose is 0, and sets them to (−dose, 0) exactly
when the dose is strictly positive. -/
theorem scfa_c8 (m : Model) (c : DoseCond) (s : SCFAName) (rid : String)
    (hres : resolveScfas m s = some rid) :
    (doseOf c s = 0 →
      getB (applyOps m (doseOps (resolveScfas m) c)) rid = getB m rid) ∧
    (doseOf c s > 0 →
      getB (applyOps m (doseOps (resolveScfas m) c)) rid = some (-(doseOf c s), 0)) := by
  obtain ⟨hmem, hcont⟩ := find_rxn_spec m (scfaCands s) rid hres
  have hSome : (getB m rid).isSome := getB_isSome_of_contains m rid hcont
  have hne : ∀ s', s' ≠ s → ∀ rid', resolveScfas m s' = some rid' → rid' ≠ rid := by
    intro s' hs' rid' hr' heq
    subst heq
    obtain ⟨hmem', _⟩ := find_rxn_spec m (scfaCands s') rid' hr'
    exact scfaCands_disj s' s hs' rid' hmem' hmem
  have key : ∀ (s' : SCFAName), s' ≠ s → ∀ (m' : Model),
      getB (applyDose m' (resolveScfas m) c s') rid = getB m' rid := by
    intro s' hs' m'
    exact getB_applyDose_ne m' (resolveScfas m) c s' rid (hne s' hs')
  constructor
  · intro h0
    have hnp : ¬ doseOf c s > 0 := by rw [h0]; exact lt_irrefl 0
    have keyAll : ∀ (s' : SCFAName) (m' : Model),
        getB (applyDose m' (resolveScfas m) c s') rid = getB m' rid := by
      intro s' m'
      by_cases hss : s' = s
      · subst hss
        rw [applyDose_of_nonpos m' (resolveScfas m) c s' hnp]
      · exact key s' hss m'
    rw [applyOps_doseOps, keyAll, keyAll, keyAll]
  · intro hp
    rw [applyOps_doseOps]
    cases s with
    | acetate =>
      rw [applyDose_of_pos m (resolveScfas m) c .acetate rid hres hp,
        key .butyrate (by simp) _, key .propionate (by simp) _]
      exact getB_setB_self m rid _ 0 hSome
    | propionate =>
      rw [applyDose_of_pos _ (resolveScfas m) c .propionate rid hres hp,
        key .butyrate (by simp) _]
      refine getB_setB_self _ rid _ 0 ?_
      rw [key .acetate (by simp) m]
      exact hSome
    | butyrate =>
      rw [applyDose_of_pos _ (resolveScfas m) c .butyrate rid hres hp]
      refine getB_setB_self _ rid _ 0 ?_
      rw [key .propionate (by simp) _, key .acetate (by simp) m]
      exact hSome

theorem scfa_c8_witness :
    getB (applyOps Wmodel8 (doseOps (resolveScfas Wmodel8) Wcond8)) "EX_ac_e"
      = getB Wmodel8 "EX_ac_e" :=
  (scfa_c8 Wmodel8 Wcond8 .acetate "EX_ac_e" (by decide)).1 rfl

/-! Lemmas for the medium-configuration procedure (claims C1, C2, C7). -/

theorem capInternal_id (r : Reaction) : (capInternal r).id = r.id := by
  simp only [capInternal]
  split_ifs <;> rfl

theorem closeBoundary_id (r : Reaction) : (closeBoundary r).id = r.id := by
  unfold closeBoundary
  split_ifs <;> rfl

theorem idsOf_setB (m : Model) (rid : String) (l u : ℚ) :
    idsOf (setB m rid l u) = idsOf m := by
  induction m with
  | nil => rfl
  | cons r rs ih =>
    by_cases hr : r.id = rid
    · simp [setB, idsOf, hr]
    · simp only [setB, if_neg hr, idsOf, List.map_cons]
      exact congrArg _ ih

theorem idsOf_setLB (m : Model) (rid : String) (l : ℚ) :
    idsOf (setLB m rid l) = idsOf m := by
  induction m with
  | nil => rfl
  | cons r rs ih =>
    by_cases hr : r.id = rid
    · simp [setLB, idsOf, hr]
    · simp only [setLB, if_neg hr, idsOf, List.map_cons]
      exact congrArg _ ih

theorem containsRxn_eq_of_idsOf (m1 m2 : Model) (rid : String) (h : idsOf m1 = idsOf m2) :
    containsRxn m1 rid = containsRxn m2 rid := by
  have e : ∀ mm : Model, containsRxn mm rid = (idsOf mm).any (fun x => x == rid) := by
    intro mm
    induction mm with
    | nil => rfl
    | cons r rs ih =>
      simp only [containsRxn, List.any_cons, idsOf, List.map_cons] at ih ⊢
      rw [ih]
  rw [e, e, h]

theorem find_rxn_eq_of_idsOf (m1 m2 : Model) (cands : List String) (h : idsOf m1 = idsOf m2) :
    find_rxn m1 cands = find_rxn m2 cands := by
  induction cands with
  | nil => rfl
  | cons c0 rest ih =>
    show (if containsRxn m1 c0 = true then some c0 else find_rxn m1 rest)
      = (if containsRxn m2 c0 = true then some c0 else find_rxn m2 rest)
    rw [containsRxn_eq_of_idsOf m1 m2 c0 h, ih]

theorem idsOf_setIfFound (m : Model) (cands : List String) (l u : ℚ) :
    idsOf (setIfFound m cands l u) = idsOf m := by
  unfold setIfFound
  cases find_rxn m cands
  · rfl
  · exact idsOf_setB ..

theorem foldl_preserveP {α : Type} (P : Model → Prop) (f : Model → α → Model)
    (xs : List α) (m : Model) (hm : P m)
    (hf : ∀ (m' : Model) (x : α), x ∈ xs → P m' → P (f m' x)) : P (xs.foldl f m) := by
  induction xs generalizing m with
  | nil => exact hm
  | cons x xs ih =>
    exact ih (f m x) (hf m x (List.mem_cons_self ..) hm)
      (fun m' y hy => hf m' y (List.mem_cons_of_mem _ hy))

theorem idsOf_reopenSteps (cfg : SimConfig) (mb : Model) :
    idsOf (reopenSteps cfg mb) = idsOf mb := by
  simp only [reopenSteps]
  refine foldl_preserveP (fun mm => idsOf mm = idsOf mb) _ _ _ ?_
    (fun mm x hx h => (idsOf_setB ..).trans h)
  refine foldl_preserveP (fun mm => idsOf mm = idsOf mb) _ _ _ ?_
    (fun mm x hx h => (idsOf_setB ..).trans h)
  show idsOf _ = idsOf mb
  refine (idsOf_setIfFound ..).trans ?_
  refine (idsOf_setIfFound ..).trans ?_
  refine (idsOf_setLB ..).trans ?_
  refine foldl_preserveP (fun mm => idsOf mm = idsOf mb) _ _ _ ?_
    (fun mm x hx h => (idsOf_setB ..).trans h)
  refine foldl_preserveP (fun mm => idsOf mm = idsOf mb) _ _ _ ?_
    (fun mm x hx h => (idsOf_setB ..).trans h)
  exact foldl_preserveP (fun mm => idsOf mm = idsOf mb) _ _ _ rfl
    (fun mm x hx h => (idsOf_setB ..).trans h)

theorem idsOf_maps (m : Model) :
    idsOf ((m.map capInternal).map closeBoundary) = idsOf m := by
  unfold idsOf
  rw [List.map_map, List.map_map]
  apply List.map_congr_left
  intro a _
  simp [Function.comp, closeBoundary_id, capInternal_id]

theorem idsOf_setup (m : Model) (cfg : SimConfig) :
    idsOf (setup_medium m cfg) = idsOf m := by
  unfold setup_medium
  exact (idsOf_reopenSteps ..).trans (idsOf_maps m)

theorem reopenedIds_eq_of_idsOf (m1 m2 : Model) (h : idsOf m1 = idsOf m2) :
    reopenedIds m1 = reopenedIds m2 := by
  unfold reopenedIds
  rw [find_rxn_eq_of_idsOf m1 m2 O2_IDS h, find_rxn_eq_of_idsOf m1 m2 GLUCOSE_IDS h]

theorem mem_reopenedIds_boundary (m : Model) (x : String) (h : x ∈ reopenedIds m) :
    isBoundaryId x = true := by
  have hFREE : ∀ y ∈ FREE, isBoundaryId y = true := by decide
  have hIONS : ∀ y ∈ IONS.map Prod.fst, isBoundaryId y = true := by decide
  have hSEC : ∀ y ∈ SECRETION.map Prod.fst, isBoundaryId y = true := by decide
  have hO2 : ∀ y ∈ O2_IDS, isBoundaryId y = true := by decide
  have hGLC : ∀ y ∈ GLUCOSE_IDS, isBoundaryId y = true := by decide
  have hAA : ∀ y ∈ ESSENTIAL_AA, isBoundaryId y = true := by decide
  have hVIT : ∀ y ∈ VITAMINS, isBoundaryId y = true := by decide
  simp only [reopenedIds, List.mem_append] at h
  rcases h with ((((((h | h) | h) | h) | h) | h) | h)
  · exact hFREE x h
  · exact hIONS x h
  · exact hSEC x h
  · rcases ho : find_rxn m O2_IDS with _ | rid
    · rw [ho] at h
      simp at h
    · rw [ho] at h
      simp only [Option.toList_some, List.mem_singleton] at h
      subst h
      exact hO2 x (find_rxn_spec m O2_IDS x ho).1
  · rcases hg : find_rxn m GLUCOSE_IDS with _ | rid
    · rw [hg] at h
      simp at h
    · rw [hg] at h
      simp only [Option.toList_some, List.mem_singleton] at h
      subst h
      exact hGLC x (find_rxn_spec m GLUCOSE_IDS x hg).1
  · exact hAA x h
  · exact hVIT x h

theorem getElem?_setB_ne (m : Model) (rid : String) (l u : ℚ) (i : ℕ) (r : Reaction)
    (h : m[i]? = some r) (hne : r.id ≠ rid) : (setB m rid l u)[i]? = some r := by
  induction m generalizing i with
  | nil => simp at h
  | cons r0 rs ih =>
    cases i with
    | zero =>
      simp only [List.getElem?_cons_zero, Option.some.injEq] at h
      subst h
      simp only [setB, if_neg hne, List.getElem?_cons_zero]
    | succ n =>
      simp only [List.getElem?_cons_succ] at h
      by_cases hr0 : r0.id = rid
      · simp only [setB, if_pos hr0, List.getElem?_cons_succ]
        exact h
      · simp only [setB, if_neg hr0, List.getElem?_cons_succ]
        exact ih n h

theorem getElem?_setLB_ne (m : Model) (rid : String) (l : ℚ) (i : ℕ) (r : Reaction)
    (h : m[i]? = some r) (hne : r.id ≠ rid) : (setLB m rid l)[i]? = some r := by
  induction m generalizing i with
  | nil => simp at h
  | cons r0 rs ih =>
    cases i with
    | zero =>
      simp only [List.getElem?_cons_zero, Option.some.injEq] at h
      subst h
      simp only [setLB, if_neg hne, List.getElem?_cons_zero]
    | succ n =>
      simp only [List.getElem?_cons_succ] at h
      by_cases hr0 : r0.id = rid
      · simp only [setLB, if_pos hr0, List.getElem?_cons_succ]
        exact h
      · simp only [setLB, if_neg hr0, List.getElem?_cons_succ]
        exact ih n h

theorem reopen_getElem?_untouched (cfg : SimConfig) (mb : Model) (i : ℕ) (r : Reaction)
    (h : mb[i]? = some r) (hnin : r.id ∉ reopenedIds mb) :
    (reopenSteps cfg mb)[i]? = some r := by
  simp only [reopenedIds, List.mem_append, not_or] at hnin
  obtain ⟨⟨⟨⟨⟨⟨hF, hI⟩, hS⟩, hO⟩, hG⟩, hA⟩, hV⟩ := hnin
  have hstep : ∀ (mm : Model) (rid : String) (l u : ℚ), r.id ≠ rid →
      mm[i]? = some r ∧ idsOf mm = idsOf mb →
      (setB mm rid l u)[i]? = some r ∧ idsOf (setB mm rid l u) = idsOf mb := by
    intro mm rid l u hne hq
    exact ⟨getElem?_setB_ne mm rid l u i r hq.1 hne, (idsOf_setB ..).trans hq.2⟩
  have hIF : ∀ (mm : Model) (cands : List String) (l u : ℚ),
      (∀ rid, find_rxn mb cands = some rid → r.id ≠ rid) →
      mm[i]? = some r ∧ idsOf mm = idsOf mb →
      (setIfFound mm cands l u)[i]? = some r ∧ idsOf (setIfFound mm cands l u) = idsOf mb := by
    intro mm cands l u hok hq
    unfold setIfFound
    rw [find_rxn_eq_of_idsOf mm mb cands hq.2]
    cases hf : find_rxn mb cands with
    | none => exact hq
    | some rid => exact hstep mm rid l u (hok rid hf) hq
  suffices hall : (reopenSteps cfg mb)[i]? = some r ∧ idsOf (reopenSteps cfg mb) = idsOf mb from
    hall.1
  simp only [reopenSteps]
  refine foldl_preserveP (fun mm => mm[i]? = some r ∧ idsOf mm = idsOf mb) _ _ _ ?_
    (fun mm x hx hq => hstep mm x _ _ (fun he => hV (he ▸ hx)) hq)
  refine foldl_preserveP _ _ _ _ ?_
    (fun mm x hx hq => hstep mm x _ _ (fun he => hA (he ▸ hx)) hq)
  refine hIF _ GLUCOSE_IDS _ _ ?_ ?_
  · intro rid hf he
    exact hG (by rw [hf, he]; exact List.mem_singleton.mpr rfl)
  refine hIF _ O2_IDS _ _ ?_ ?_
  · intro rid hf he
    exact hO (by rw [hf, he]; exact List.mem_singleton.mpr rfl)
  have hnh4 : r.id ≠ "EX_nh4_e" := by
    intro he
    refine hS ?_
    rw [he]
    decide
  refine ?_
  have hstepLB : ∀ (mm : Model),
      mm[i]? = some r ∧ idsOf mm = idsOf mb →
      (setLB mm "EX_nh4_e" (-(1/2)))[i]? = some r ∧
        idsOf (setLB mm "EX_nh4_e" (-(1/2))) = idsOf mb := by
    intro mm hq
    exact ⟨getElem?_setLB_ne mm _ _ i r hq.1 hnh4, (idsOf_setLB ..).trans hq.2⟩
  refine hstepLB _ ?_
  refine foldl_preserveP _ _ _ _ ?_
    (fun mm x hx hq => hstep mm x.1 _ _
      (fun he => hS (he ▸ List.mem_map_of_mem Prod.fst hx)) hq)
  refine foldl_preserveP _ _ _ _ ?_
    (fun mm x hx hq => hstep mm x.1 _ _
      (fun he => hI (he ▸ List.mem_map_of_mem Prod.fst hx)) hq)
  exact foldl_preserveP _ _ _ _ ⟨h, rfl⟩
    (fun mm x hx hq => hstep mm x _ _ (fun he => hF (he ▸ hx)) hq)

/-- C1: after `setup_medium`, every boundary reaction (identifier prefixed
`EX_`/`DM_`/`sink_`/`SK_`) whose identifier is not among the curated
reopened set has bounds (0, 0) — no uptake, no secretion. -/
theorem scfa_c1 (m : Model) (cfg : SimConfig) (r : Reaction)
    (hmem : r ∈ setup_medium m cfg) (hbd : isBoundaryId r.id = true)
    (hnin : r.id ∉ reopenedIds m) : r.lb = 0 ∧ r.ub = 0 := by
  obtain ⟨i, hi⟩ := List.mem_iff_getElem?.mp hmem
  have hlen : (setup_medium m cfg).length = m.length := by
    have h1 : (idsOf (setup_medium m cfg)).length = (idsOf m).length := by
      rw [idsOf_setup]
    simpa [idsOf] using h1
  have hi_lt : i < m.length := by
    rw [← hlen]
    obtain ⟨hl, _⟩ := List.getElem?_eq_some_iff.mp hi
    exact hl
  obtain ⟨r0, h0⟩ : ∃ r0, m[i]? = some r0 := by
    rw [List.getElem?_eq_getElem hi_lt]
    exact ⟨_, rfl⟩
  have hid : r.id = r0.id := by
    have h1 : (idsOf (setup_medium m cfg))[i]? = (idsOf m)[i]? := by
      rw [idsOf_setup]
    simpa [idsOf, hi, h0] using h1
  have hmc : ((m.map capInternal).map closeBoundary)[i]?
      = some (closeBoundary (capInternal r0)) := by
    simp [h0]
  have hninc : (closeBoundary (capInternal r0)).id
      ∉ reopenedIds ((m.map capInternal).map closeBoundary) := by
    rw [reopenedIds_eq_of_idsOf _ m (idsOf_maps m), closeBoundary_id, capInternal_id, ← hid]
    exact hnin
  have hfin := reopen_getElem?_untouched cfg _ i (closeBoundary (capInternal r0)) hmc hninc
  have hs : (setup_medium m cfg)[i]? = some (closeBoundary (capInternal r0)) := by
    unfold setup_medium
    exact hfin
  have hrx : r = closeBoundary (capInternal r0) := by
    rw [hi] at hs
    injection hs
  have hb0 : isBoundaryId (capInternal r0).id = true := by
    rw [capInternal_id, ← hid]
    exact hbd
  rw [hrx]
  unfold closeBoundary
  rw [if_pos hb0]
  exact ⟨rfl, rfl⟩

theorem scfa_c1_witness :
    (⟨"EX_foo_e", 0, 0⟩ : Reaction).lb = 0 ∧ (⟨"EX_foo_e", 0, 0⟩ : Reaction).ub = 0 :=
  scfa_c1 Wmodel1 Wcfg ⟨"EX_foo_e", 0, 0⟩ (by decide) (by decide) (by decide)

/-- C2: after `setup_medium`, every non-boundary reaction has lower bound ≥
−500 and upper bound ≤ +500, and a non-boundary reaction whose bounds were
already within [−500, 500] keeps its original bounds unchanged. -/
theorem scfa_c2 (m : Model) (cfg : SimConfig) (i : ℕ) (r : Reaction)
    (h : m[i]? = some r) (hnb : isBoundaryId r.id = false) :
    ∃ r', (setup_medium m cfg)[i]? = some r' ∧ -500 ≤ r'.lb ∧ r'.ub ≤ 500 ∧
      (-500 ≤ r.lb → r.lb ≤ 500 → -500 ≤ r.ub → r.ub ≤ 500 → r' = r) := by
  have hnb' : ¬ isBoundaryId r.id = true := by
    rw [hnb]
    simp
  refine ⟨capInternal r, ?_, ?_, ?_, ?_⟩
  · have hmc : ((m.map capInternal).map closeBoundary)[i]?
        = some (closeBoundary (capInternal r)) := by
      simp [h]
    have hcb : closeBoundary (capInternal r) = capInternal r := by
      unfold closeBoundary
      rw [capInternal_id, if_neg hnb']
    rw [hcb] at hmc
    have hnin : (capInternal r).id
        ∉ reopenedIds ((m.map capInternal).map closeBoundary) := by
      rw [reopenedIds_eq_of_idsOf _ m (idsOf_maps m), capInternal_id]
      intro hx
      exact hnb' (mem_reopenedIds_boundary m _ hx)
    have := reopen_getElem?_untouched cfg _ i (capInternal r) hmc hnin
    unfold setup_medium
    exact this
  · simp only [capInternal, if_pos hnb']
    split_ifs <;> simp_all
  · simp only [capInternal, if_pos hnb']
    split_ifs <;> simp_all
  · intro hl1 hl2 hu1 hu2
    simp only [capInternal, if_pos hnb']
    split_ifs <;> simp_all <;> linarith

theorem scfa_c2_witness :
    ∃ r', (setup_medium Wmodel2 Wcfg)[0]? = some r' ∧ (-500 : ℚ) ≤ r'.lb ∧ r'.ub ≤ 500 ∧
      ((-500 : ℚ) ≤ (⟨"PFK", -3, 1000⟩ : Reaction).lb →
        (⟨"PFK", -3, 1000⟩ : Reaction).lb ≤ 500 →
        (-500 : ℚ) ≤ (⟨"PFK", -3, 1000⟩ : Reaction).ub →
        (⟨"PFK", -3, 1000⟩ : Reaction).ub ≤ 500 →
        r' = ⟨"PFK", -3, 1000⟩) :=
  scfa_c2 Wmodel2 Wcfg 0 ⟨"PFK", -3, 1000⟩ (by decide) (by decide)

/-- C7: when neither candidate identifier of the ATP-maintenance objective
(`ATPM`, `DM_atp_c_`) names a reaction of the network, the simulation stage
fails with the fatal error, for every solver and every condition list — no
optimization result is ever produced. -/
theorem scfa_c7 (m : Model) (cfg : SimConfig)
    (h1 : containsRxn m "ATPM" = false) (h2 : containsRxn m "DM_atp_c_" = false)
    (optimize : Model → Solution) (conds : List DoseCond) :
    runStage optimize m cfg conds = Except.error "Cant find ATPM reaction" := by
  have e1 : containsRxn (setup_medium m cfg) "ATPM" = false :=
    (containsRxn_eq_of_idsOf _ m "ATPM" (idsOf_setup m cfg)).trans h1
  have e2 : containsRxn (setup_medium m cfg) "DM_atp_c_" = false :=
    (containsRxn_eq_of_idsOf _ m "DM_atp_c_" (idsOf_setup m cfg)).trans h2
  have hf : find_rxn (setup_medium m cfg) ATPM_IDS = none := by
    simp [find_rxn, ATPM_IDS, e1, e2]
  simp only [runStage]
  rw [hf]

theorem scfa_c7_witness :
    runStage Wopt [] Wcfg [] = Except.error "Cant find ATPM reaction" :=
  scfa_c7 [] Wcfg rfl rfl Wopt []

/-! Lemmas and claims for the dose-table validator (C4, C5, C6, C10). -/

theorem filter_missing_nil (df : DoseTable)
    (hcols : ∀ c ∈ neededCols, df.columns.contains c = true) :
    (neededCols.filter fun c => ! df.columns.contains c) = [] := by
  rw [List.filter_eq_nil_iff]
  intro c hc hcon
  rw [hcols c hc] at hcon
  simp at hcon

theorem colVals_astypeStr (df : DoseTable) (c : String) :
    colVals (astypeStr df) c = colVals df c := by
  unfold colVals astypeStr
  split_ifs <;> simp [List.map_map, astypeStrRow, Function.comp]

/-- C4: when the dose table has the required columns but its set of
condition names differs from the expected set in any way, `read_scfa_inputs`
returns the validation error built from both the expected and the received
condition names — it never returns a table. -/
theorem scfa_c4 (df : DoseTable) (expected : List String)
    (hcols : ∀ c ∈ neededCols, df.columns.contains c = true)
    (hset : (condStrs (astypeStr df)).toFinset ≠ expected.toFinset) :
    read_scfa_inputs df expected
      = Except.error (mismatchMsg expected (condStrs (astypeStr df))) := by
  simp only [read_scfa_inputs]
  rw [if_neg (not_not_intro (filter_missing_nil df hcols)), if_pos hset]

theorem scfa_c4_witness :
    read_scfa_inputs Wdf4 Wexp4
      = Except.error (mismatchMsg Wexp4 (condStrs (astypeStr Wdf4))) :=
  scfa_c4 Wdf4 Wexp4 (by decide) (by decide)

/-- C5: when the dose table has the required columns and the expected
condition set but some dose column holds a negative value,
`read_scfa_inputs` returns the validation error naming a dose column that
indeed holds a negative value — it never returns a table. -/
theorem scfa_c5 (df : DoseTable) (expected : List String)
    (hcols : ∀ c ∈ neededCols, df.columns.contains c = true)
    (hset : (condStrs (astypeStr df)).toFinset = expected.toFinset)
    (hneg : ∃ c ∈ doseColumns, hasNeg (colVals df c) = true) :
    ∃ c ∈ doseColumns, read_scfa_inputs df expected = Except.error (negMsg c)
      ∧ hasNeg (colVals df c) = true := by
  have hfind : (doseColumns.find? fun c => hasNeg (colVals (astypeStr df) c)).isSome := by
    rw [List.find?_isSome]
    obtain ⟨c, hc, hcneg⟩ := hneg
    exact ⟨c, hc, by rw [colVals_astypeStr]; exact hcneg⟩
  obtain ⟨c0, hc0⟩ := Option.isSome_iff_exists.mp hfind
  have hc0mem : c0 ∈ doseColumns := List.mem_of_find?_eq_some hc0
  have hc0p : hasNeg (colVals (astypeStr df) c0) = true := by
    have h1 := List.find?_some hc0
    simpa using h1
  refine ⟨c0, hc0mem, ?_, by rw [← colVals_astypeStr]; exact hc0p⟩
  have hfc : firstNegCol (astypeStr df) = some c0 := hc0
  simp only [read_scfa_inputs]
  rw [if_neg (not_not_intro (filter_missing_nil df hcols)), if_neg (not_not_intro hset), hfc]

theorem scfa_c5_witness :
    ∃ c ∈ doseColumns, read_scfa_inputs Wdf5 Wexp5 = Except.error (negMsg c)
      ∧ hasNeg (colVals Wdf5 c) = true :=
  scfa_c5 Wdf5 Wexp5 (by decide) (by decide)
    ⟨"acetate_mmol_gDW_hr", by decide, by decide⟩

/-- C6: validation is idempotent — whenever `read_scfa_inputs` accepts a
table and returns the canonicalized table `out` (sorted by condition,
string-typed condition column), running `read_scfa_inputs` on `out` itself
returns `out` unchanged. -/
theorem scfa_c6 (df : DoseTable) (expected : List String) (out : DoseTable)
    (h : read_scfa_inputs df expected = Except.ok out) :
    read_scfa_inputs out expected = Except.ok out := by
  simp only [read_scfa_inputs] at h
  split at h
  · exact absurd h (by simp)
  rename_i hmne
  split at h
  · exact absurd h (by simp)
  rename_i hsetne
  split at h
  · exact absurd h (by simp)
  rename_i hneg
  rw [not_not] at hmne
  have hset : (condStrs (astypeStr df)).toFinset = expected.toFinset := not_not.mp hsetne
  have hout : out = { astypeStr df with rows := List.insertionSort condLe (astypeStr df).rows } := by
    injection h with h2
    exact h2.symm
  have hcolsOut : out.columns = df.columns := by
    rw [hout]
    rfl
  have hrows : out.rows = List.insertionSort condLe (astypeStr df).rows := by
    rw [hout]
  have hcanon : ∀ r ∈ out.rows, astypeStrRow r = r := by
    intro r hr
    rw [hrows, List.mem_insertionSort] at hr
    obtain ⟨r1, _, rfl⟩ := List.mem_map.mp hr
    rfl
  have hasty : astypeStr out = out := by
    have h2 : out.rows.map astypeStrRow = out.rows := by
      rw [List.map_congr_left hcanon]
      simp
    unfold astypeStr
    rw [h2]
  have hperm : List.Perm out.rows (astypeStr df).rows := by
    rw [hrows]
    exact List.perm_insertionSort condLe _
  have hset2 : (condStrs out).toFinset = expected.toFinset := by
    rw [← hset]
    exact List.toFinset_eq_of_perm _ _ (hperm.map _)
  have hneg2 : firstNegCol out = none := by
    unfold firstNegCol at hneg ⊢
    rw [List.find?_eq_none] at hneg ⊢
    intro c hc hcontra
    have hcvperm : List.Perm (colVals out c) (colVals (astypeStr df) c) := by
      unfold colVals
      split_ifs <;> first | exact hperm.map _ | exact List.Perm.refl []
    have e : hasNeg (colVals out c) = hasNeg (colVals (astypeStr df) c) := by
      unfold hasNeg
      rw [List.any_eq, List.any_eq]
      simp only [hcvperm.mem_iff]
    exact hneg c hc (e ▸ hcontra)
  have hsorted : List.Sorted condLe out.rows := by
    rw [hrows]
    exact List.sorted_insertionSort condLe _
  have hsortid : List.insertionSort condLe out.rows = out.rows :=
    hsorted.insertionSort_eq
  have hmOut : (neededCols.filter fun c => ! out.columns.contains c) = [] := by
    rw [hcolsOut]
    exact hmne
  simp only [read_scfa_inputs]
  rw [if_neg (not_not_intro hmOut), hasty, if_neg (not_not_intro hset2), hneg2, hsortid]

theorem scfa_c6_witness :
    read_scfa_inputs Wout6 Wexp6 = Except.ok Wout6 :=
  scfa_c6 Wdf6 Wexp6 Wout6 rfl

/-- C10: the condition check compares sets of names and therefore ignores
row multiplicity: a table with two rows named `Low` (four rows against the
three expected conditions) passes validation and all four rows are
returned; uniqueness of condition rows is not enforced. -/
theorem scfa_c10 :
    (read_scfa_inputs Wdf10 Wexp10).map (fun out => out.rows.length)
      = Except.ok 4 := rfl

end SCFA
